import Mathlib

/-!
Verification of the composition-and-lifecycle engine of a modular
reinforcement-learning environment (`gym_env/environment.py` and
`world/world.py`).

The development shallowly embeds the orchestrator's pure control logic:
the per-step action-partition loop, the bounded-retry reset loop, the
observation-space composer, the rolling stat buffers, the termination
aggregator, the per-robot active-flag updates, the reset-attempt event
order, the logging record's per-robot execution-time entries, and the
world's robot-registration partitions.  Machine state threaded through
the Python code (offsets, counters, lists) becomes explicit arguments
and return values.
-/

namespace ModularDRL

/-! ## Step pipeline: action partition loop

Embeds the loop at the top of `ModularDRLEnv.step`:

    offset = 0
    exec_times_cpu = []
    for idx, robot in enumerate(self.robots):
        if not self.active_robots[idx]:
            continue
        current_robot_action = action[offset : self.action_space_dims[idx] + offset]
        offset += self.action_space_dims[idx]
        exec_time = robot.process_action(current_robot_action)
        exec_times_cpu.append(exec_time)

A robot is a pair `(dim, active)` of its entry in `action_space_dims`
and its `active_robots` flag.  Python's clamping slice `a[i:j]` on a
list is `(a.drop i).take (j - i)`.  The result records, in order, each
`process_action` call made: the robot index it went to and the slice it
received.  No length validation of `action` appears anywhere in `step`,
so the embedding is total in `action`.  -/

def stepActionCalls (robots : List (Nat × Bool)) (offset : Nat) (idx : Nat)
    (action : List Int) : List (Nat × List Int) :=
  match robots with
  | [] => []
  | (dim, active) :: rest =>
    if active then
      (idx, (action.drop offset).take dim) :: stepActionCalls rest (offset + dim) (idx + 1) action
    else
      stepActionCalls rest offset (idx + 1) action

/-- Modelled from the spec: the slice the spec's §4.3/§4.5 prescribe for
robot `i` — boundaries fixed at construction time, `b_i` the sum of the
dimensionalities of all robots registered before `i`, width `d_i`. -/
def specFixedSlice (dims : List Nat) (i : Nat) (action : List Int) : List Int :=
  (action.drop ((dims.take i).sum)).take (dims.getD i 0)

/-! ## Episode initializer: bounded-retry loop

Embeds the control flow of the generation loop in `ModularDRLEnv.reset`:

    reset_count = 0
    while True:
        if reset_count > 1000:
            raise Exception("Could not find collision-free starting setup after 1000 tries. ...")
        ...  # one full generation attempt
        self.world.perform_collision_check()
        if not self.world.collision:
            break
        else:
            reset_count += 1

`collides n` abstracts whether the `n`-th generation attempt (0-based)
ends in a collision; `attempts` counts the attempts performed so far.
`fatal` is the raised exception, `ok` the `break`; both record how many
attempts were performed in total.  -/

inductive ResetOutcome where
  | ok (attempts : Nat)
  | fatal (attempts : Nat)
deriving DecidableEq

def resetLoop (collides : Nat → Bool) (reset_count : Nat) (attempts : Nat) : ResetOutcome :=
  if h : reset_count > 1000 then ResetOutcome.fatal attempts
  else if collides attempts then resetLoop collides (reset_count + 1) (attempts + 1)
  else ResetOutcome.ok (attempts + 1)
termination_by 1001 - reset_count
decreasing_by omega

/-- When every attempt collides, the loop entered with `1001 - k` prior
collisions performs `k` further attempts and then raises. -/
lemma resetLoop_all_collide (collides : Nat → Bool) (hall : ∀ n, collides n = true) :
    ∀ k attempts, k ≤ 1001 →
      resetLoop collides (1001 - k) attempts = ResetOutcome.fatal (attempts + k) := by
  intro k
  induction k with
  | zero =>
    intro attempts _
    rw [resetLoop]
    simp
  | succ k ih =>
    intro attempts hk
    rw [resetLoop]
    rw [dif_neg (by omega), if_pos (hall attempts)]
    have h2 : 1001 - (k + 1) + 1 = 1001 - k := by omega
    rw [h2, ih (attempts + 1) (by omega)]
    congr 1
    omega

/-! ## Space composer: observation-space dictionary

Embeds lines 156–165 of `ModularDRLEnv.__init__`:

    observation_space_dict = dict()
    for sensor in self.sensors:
        if sensor.add_to_observation_space:
            observation_space_dict = {**observation_space_dict, **sensor.get_observation_space_element()}
    for goal in self.goals:
        if goal.add_to_observation_space:
            observation_space_dict = {**observation_space_dict, **goal.get_observation_space_element()}

A Python dict is an insertion-ordered association list; `{**a, **b}`
inserts every entry of `b` into `a` in order, where inserting an
existing key overwrites its value in place and a new key is appended.
Space descriptors are abstracted to `Nat` tags. -/

def dictInsert (d : List (String × Nat)) (kv : String × Nat) : List (String × Nat) :=
  if d.any (fun p => p.1 == kv.1) then
    d.map (fun p => if p.1 == kv.1 then (p.1, kv.2) else p)
  else d ++ [kv]

def dictMerge (a b : List (String × Nat)) : List (String × Nat) :=
  b.foldl dictInsert a

structure ObsPlugin where
  add_to_observation_space : Bool
  observation_space_element : List (String × Nat)

def composeObservationSpace (sensors goals : List ObsPlugin) : List (String × Nat) :=
  let afterSensors := sensors.foldl
    (fun acc s => if s.add_to_observation_space then
        dictMerge acc s.observation_space_element else acc) []
  goals.foldl
    (fun acc g => if g.add_to_observation_space then
        dictMerge acc g.observation_space_element else acc) afterSensors

/-! ## Stat tracker: rolling stat buffers

Embeds the buffer update of lines 343–355 of `step` — for each of the
four stat lists, on an episode-terminating step:

    self.success_stat.append(is_success)
    if len(self.success_stat) > self.stat_buffer_size:
        self.success_stat.pop(0)

together with the construction-time seeds `self.success_stat = [False]`
etc. (lines 49–52) and `self.stat_buffer_size = 25` (line 40); `reset`
never clears the stat lists. -/

def stat_buffer_size : Nat := 25

def statPush (buf : List Bool) (x : Bool) (size : Nat) : List Bool :=
  if (buf ++ [x]).length > size then (buf ++ [x]).tail else buf ++ [x]

/-- The state of one stat buffer after the episodes recorded in
`outcomes` have completed, starting from the `[False]` seed. -/
def statBufferAfter (outcomes : List Bool) : List Bool :=
  outcomes.foldl (fun buf x => statPush buf x stat_buffer_size) [false]

lemma statPush_length (buf : List Bool) (x : Bool) (size : Nat) (h : buf.length ≤ size) :
    (statPush buf x size).length = min (buf.length + 1) size := by
  simp only [statPush]
  split_ifs with hgt
  · simp only [List.length_tail, List.length_append, List.length_singleton] at *
    omega
  · simp only [List.length_append, List.length_singleton] at *
    omega

lemma statFold_length (outcomes : List Bool) :
    ∀ buf : List Bool, buf.length ≤ stat_buffer_size →
      (outcomes.foldl (fun b x => statPush b x stat_buffer_size) buf).length
        = min (buf.length + outcomes.length) stat_buffer_size := by
  induction outcomes with
  | nil =>
    intro buf h
    simpa using (Nat.min_eq_left h).symm
  | cons x xs ih =>
    intro buf h
    simp only [List.foldl_cons]
    have h1 := statPush_length buf x stat_buffer_size h
    have h2 : (statPush buf x stat_buffer_size).length ≤ stat_buffer_size := by omega
    rw [ih _ h2, h1]
    simp only [List.length_cons]
    omega

/-! ## Episode initializer: order of events in one generation attempt

Embeds the body of the `while` loop in `reset` (lines 204–235) as the
sequence of World/Robot/engine calls it performs:

    pyb.resetSimulation()
    self.world.reset()
    for robot in self.robots: robot.build()
    ee_starting_points = self.world.create_ee_starting_points()
    position_targets = self.world.create_position_target()
    rotation_targets = self.world.create_rotation_target()
    self.world.build()
    for idx, ee_pos in enumerate(ee_starting_points):
        if ee_pos[0] is None: continue
        elif ee_pos[1] is None: self.robots[idx].moveto_xyz(ee_pos[0])
        else: self.robots[idx].moveto_xyzquat(ee_pos[0], ee_pos[1])
    self.world.perform_collision_check()

Each starting-point entry is a no-op, a position-only constraint, or a
position-plus-rotation constraint. -/

inductive EeConstraint where
  | noConstraint
  | posOnly
  | posAndRot
deriving DecidableEq

inductive ResetEvent where
  | pybResetSimulation
  | worldReset
  | robotBuild (idx : Nat)
  | createEeStartingPoints
  | createPositionTarget
  | createRotationTarget
  | worldBuild
  | movetoXyz (idx : Nat)
  | movetoXyzquat (idx : Nat)
  | collisionCheck
deriving DecidableEq

def teleportEvents (idx : Nat) : List EeConstraint → List ResetEvent
  | [] => []
  | EeConstraint.noConstraint :: rest => teleportEvents (idx + 1) rest
  | EeConstraint.posOnly :: rest => ResetEvent.movetoXyz idx :: teleportEvents (idx + 1) rest
  | EeConstraint.posAndRot :: rest => ResetEvent.movetoXyzquat idx :: teleportEvents (idx + 1) rest

def resetAttemptTrace (numRobots : Nat) (eePoints : List EeConstraint) : List ResetEvent :=
  ResetEvent.pybResetSimulation :: ResetEvent.worldReset ::
    ((List.range numRobots).map ResetEvent.robotBuild
      ++ ResetEvent.createEeStartingPoints :: ResetEvent.createPositionTarget ::
        ResetEvent.createRotationTarget :: ResetEvent.worldBuild ::
        (teleportEvents 0 eePoints ++ [ResetEvent.collisionCheck]))

/-- `occursBefore l a b`: some occurrence of `a` in `l` strictly
precedes some occurrence of `b`. -/
def occursBefore (l : List ResetEvent) (a b : ResetEvent) : Bool :=
  match l with
  | [] => false
  | x :: xs => (decide (x = a) && xs.contains b) || occursBefore xs a b

lemma occursBefore_of_append (l1 l2 : List ResetEvent) (a b : ResetEvent) (hb : b ∈ l2) :
    occursBefore (l1 ++ a :: l2) a b = true := by
  induction l1 with
  | nil => simp [occursBefore, hb]
  | cons x xs ih => simp [occursBefore, ih]

/-! ## Termination & reward aggregator

Embeds lines 311–327 of `step`: the goal loop collects each goal's
`reward` tuple `(reward, success, done, timeout, out_of_bounds)`, then

    done = np.any(dones) or collision
    is_success = np.all(successes)
    timeout = np.any(timeouts)
    out_of_bounds = np.any(oobs)
-/

/-! ## Step pipeline: per-robot active flags

Embeds the goal loop's flag mutation in `step` (lines 311–320) — the
goal at index `idx` belongs to the robot at index `idx`:

    if reward_info[1] and not goal.continue_after_success:
        self.active_robots[idx] = False

`reset` sets every flag to `True`, so a run of steps within one episode
is a fold of this update over the per-step goal outcomes. -/

structure StepGoalInput where
  success : Bool
  continue_after_success : Bool
deriving DecidableEq

def updateActive : List Bool → List StepGoalInput → List Bool
  | [], _ => []
  | a :: as, [] => a :: as
  | a :: as, g :: gs =>
    (if g.success && !g.continue_after_success then false else a) :: updateActive as gs

def runSteps (active : List Bool) (steps : List (List StepGoalInput)) : List Bool :=
  steps.foldl updateActive active

lemma updateActive_false_stable (active : List Bool) (goals : List StepGoalInput) (i : Nat)
    (h : active.get? i = some false) :
    (updateActive active goals).get? i = some false := by
  induction active generalizing goals i with
  | nil => simp at h
  | cons a as ih =>
    cases goals with
    | nil => simpa [updateActive] using h
    | cons g gs =>
      cases i with
      | zero =>
        simp only [List.get?] at h
        simp only [updateActive, List.get?]
        cases hc : (g.success && !g.continue_after_success) <;> simp_all
      | succ i =>
        simpa [updateActive] using ih gs i (by simpa using h)

lemma runSteps_false_stable (steps : List (List StepGoalInput)) :
    ∀ (active : List Bool) (i : Nat), active.get? i = some false →
      (runSteps active steps).get? i = some false := by
  induction steps with
  | nil => intro active i h; simpa [runSteps] using h
  | cons s rest ih =>
    intro active i h
    simpa [runSteps] using ih (updateActive active s) i (updateActive_false_stable active s i h)

/-- A flag that flips from true to false in one step does so because
the robot's goal reported success with `continue_after_success` off. -/
lemma updateActive_deactivation (active : List Bool) (goals : List StepGoalInput) (i : Nat)
    (hT : active.get? i = some true)
    (hF : (updateActive active goals).get? i = some false) :
    ∃ g, goals.get? i = some g ∧ g.success = true ∧ g.continue_after_success = false := by
  induction active generalizing goals i with
  | nil => simp at hT
  | cons a as ih =>
    cases goals with
    | nil => simp [updateActive, hT] at hF; simp_all
    | cons g gs =>
      cases i with
      | zero =>
        simp only [List.get?] at hT hF ⊢
        cases hs : g.success <;> cases hc : g.continue_after_success <;> simp_all
      | succ i =>
        simpa using ih gs i (by simpa using hT) (by simpa [updateActive] using hF)

lemma zip_get?_snd {A B : Type} (l1 : List A) (l2 : List B) (k : Nat) (p : A × B)
    (h : (l1.zip l2).get? k = some p) : l2.get? k = some p.2 := by
  induction l1 generalizing l2 k with
  | nil => simp at h
  | cons a as ih =>
    cases l2 with
    | nil => simp at h
    | cons b bs =>
      cases k with
      | zero =>
        simp only [List.zip_cons_cons, List.get?] at h
        cases h2 : p with
        | mk x y => simp_all
      | succ k => simpa using ih bs k (by simpa using h)

structure GoalStepResult where
  success : Bool
  done : Bool
  timeout : Bool
  out_of_bounds : Bool
deriving DecidableEq

def envDone (results : List GoalStepResult) (collision : Bool) : Bool :=
  (results.map (fun r => r.done)).any id || collision

def envIsSuccess (results : List GoalStepResult) : Bool :=
  (results.map (fun r => r.success)).all id

def envTimeout (results : List GoalStepResult) : Bool :=
  (results.map (fun r => r.timeout)).any id

def envOutOfBounds (results : List GoalStepResult) : Bool :=
  (results.map (fun r => r.out_of_bounds)).any id

/-- Every `process_action` call recorded by the loop went to a robot
whose `active` flag was true, at the index it occupies in the robot
list. -/
lemma stepActionCalls_mem_active (robots : List (Nat × Bool)) (offset idx : Nat)
    (action : List Int) (j : Nat) (s : List Int)
    (h : (j, s) ∈ stepActionCalls robots offset idx action) :
    ∃ k d, robots.get? k = some (d, true) ∧ j = idx + k := by
  induction robots generalizing offset idx with
  | nil => simp [stepActionCalls] at h
  | cons p rest ih =>
    obtain ⟨dim, active⟩ := p
    cases active with
    | true =>
      simp only [stepActionCalls, if_true, List.mem_cons, Prod.mk.injEq] at h
      rcases h with ⟨hj, _⟩ | h2
      · exact ⟨0, dim, by simp, by omega⟩
      · obtain ⟨k, d, hk, hj⟩ := ih (offset + dim) (idx + 1) h2
        exact ⟨k + 1, d, by simpa using hk, by omega⟩
    | false =>
      simp only [stepActionCalls, if_false] at h
      obtain ⟨k, d, hk, hj⟩ := ih offset (idx + 1) h
      exact ⟨k + 1, d, by simpa using hk, by omega⟩

/-- The loop makes exactly one `process_action` call per active robot,
whatever the length of `action`. -/
lemma stepActionCalls_length (robots : List (Nat × Bool)) (offset idx : Nat)
    (action : List Int) :
    (stepActionCalls robots offset idx action).length
      = (robots.filter (fun p => p.2)).length := by
  induction robots generalizing offset idx with
  | nil => rfl
  | cons p rest ih =>
    obtain ⟨dim, active⟩ := p
    cases active <;> simp [stepActionCalls, List.filter, ih]

/-! ## Logging: per-robot execution-time entries

Embeds the interaction between the action loop's
`exec_times_cpu.append(exec_time)` (executed only for active robots,
lines 290–296) and the logging loop (lines 373–374):

    for idx, robot in enumerate(self.robots):
        info["action_cpu_time_" + robot.name] = exec_times_cpu[idx]

Indexing a Python list out of range raises `IndexError`; the embedding
of the logging loop therefore returns an `Option`, `none` when the
step would raise. -/

structure RobotLog where
  name : String
  active : Bool
  exec_time : Nat
deriving DecidableEq

def execTimesCpu (robots : List RobotLog) : List Nat :=
  (robots.filter (fun r => r.active)).map (fun r => r.exec_time)

def actionCpuTimeEntries (names : List String) (idx : Nat) (times : List Nat) :
    Option (List (String × Nat)) :=
  match names with
  | [] => some []
  | n :: rest =>
    match times.get? idx with
    | none => none
    | some t =>
      (actionCpuTimeEntries rest (idx + 1) times).map
        (fun l => ("action_cpu_time_" ++ n, t) :: l)

def actionCpuTimeInfo (robots : List RobotLog) : Option (List (String × Nat)) :=
  actionCpuTimeEntries (robots.map (fun r => r.name)) 0 (execTimesCpu robots)

/-! ## World: robot registration

Embeds `World.register_robots` (`world/world.py`, lines 40–54):

    id_counter = 0
    for robot in robots:
        self.robots_in_world.append(robot)
        robot.id = id_counter
        id_counter += 1
        if robot.goal.needs_a_position:
            self.robots_with_position.append(robot)
        elif robot.goal.needs_a_rotation:
            self.robots_with_orientation.append(robot)

A robot is represented by its goal's two capability flags; each list
entry carries the id the loop assigned. -/

structure GoalFlags where
  needs_a_position : Bool
  needs_a_rotation : Bool
deriving DecidableEq

structure WorldReg where
  robots_in_world : List (Nat × GoalFlags)
  robots_with_position : List (Nat × GoalFlags)
  robots_with_orientation : List (Nat × GoalFlags)
deriving DecidableEq

def registerStep (st : WorldReg × Nat) (r : GoalFlags) : WorldReg × Nat :=
  ({ robots_in_world := st.1.robots_in_world ++ [(st.2, r)]
     robots_with_position :=
       if r.needs_a_position then st.1.robots_with_position ++ [(st.2, r)]
       else st.1.robots_with_position
     robots_with_orientation :=
       if r.needs_a_position then st.1.robots_with_orientation
       else if r.needs_a_rotation then st.1.robots_with_orientation ++ [(st.2, r)]
       else st.1.robots_with_orientation }, st.2 + 1)

def register_robots (robots : List GoalFlags) : WorldReg :=
  (robots.foldl registerStep (⟨[], [], []⟩, 0)).1

lemma register_mem_in_world (robots : List GoalFlags) :
    ∀ (w : WorldReg) (c i : Nat) (r : GoalFlags),
      ((i, r) ∈ (robots.foldl registerStep (w, c)).1.robots_in_world ↔
        (i, r) ∈ w.robots_in_world ∨ ∃ k, robots.get? k = some r ∧ i = c + k) := by
  induction robots with
  | nil =>
    intro w c i r
    simp
  | cons r0 rest ih =>
    intro w c i r
    simp only [List.foldl_cons]
    rw [show registerStep (w, c) r0
        = ({ robots_in_world := w.robots_in_world ++ [(c, r0)]
             robots_with_position :=
               if r0.needs_a_position then w.robots_with_position ++ [(c, r0)]
               else w.robots_with_position
             robots_with_orientation :=
               if r0.needs_a_position then w.robots_with_orientation
               else if r0.needs_a_rotation then w.robots_with_orientation ++ [(c, r0)]
               else w.robots_with_orientation }, c + 1) from rfl]
    rw [ih]
    simp only [List.mem_append, List.mem_singleton, Prod.mk.injEq]
    constructor
    · rintro ((hw | ⟨hi, hr⟩) | ⟨k, hk, hik⟩)
      · exact Or.inl hw
      · exact Or.inr ⟨0, by simp [hr], by omega⟩
      · exact Or.inr ⟨k + 1, by simpa using hk, by omega⟩
    · rintro (hw | ⟨k, hk, hik⟩)
      · exact Or.inl (Or.inl hw)
      · cases k with
        | zero =>
          simp only [List.get?] at hk
          have hr : r0 = r := by simpa using hk
          exact Or.inl (Or.inr ⟨by omega, hr.symm⟩)
        | succ k => exact Or.inr ⟨k, by simpa using hk, by omega⟩

lemma register_mem_position (robots : List GoalFlags) :
    ∀ (w : WorldReg) (c i : Nat) (r : GoalFlags),
      ((i, r) ∈ (robots.foldl registerStep (w, c)).1.robots_with_position ↔
        (i, r) ∈ w.robots_with_position ∨
          ∃ k, robots.get? k = some r ∧ i = c + k ∧ r.needs_a_position = true) := by
  induction robots with
  | nil =>
    intro w c i r
    simp
  | cons r0 rest ih =>
    intro w c i r
    simp only [List.foldl_cons]
    rw [ih]
    by_cases hp : r0.needs_a_position = true
    · rw [show (registerStep (w, c) r0).1.robots_with_position
          = w.robots_with_position ++ [(c, r0)] by simp [registerStep, hp]]
      rw [show (registerStep (w, c) r0).2 = c + 1 from rfl]
      simp only [List.mem_append, List.mem_singleton, Prod.mk.injEq]
      constructor
      · rintro ((hw | ⟨hi, hr⟩) | ⟨k, hk, hik, hflag⟩)
        · exact Or.inl hw
        · exact Or.inr ⟨0, by simp [hr], by omega, by rw [hr]; exact hp⟩
        · exact Or.inr ⟨k + 1, by simpa using hk, by omega, hflag⟩
      · rintro (hw | ⟨k, hk, hik, hflag⟩)
        · exact Or.inl (Or.inl hw)
        · cases k with
          | zero =>
            have hr : r0 = r := by simpa using hk
            exact Or.inl (Or.inr ⟨by omega, hr.symm⟩)
          | succ k => exact Or.inr ⟨k, by simpa using hk, by omega, hflag⟩
    · rw [show (registerStep (w, c) r0).1.robots_with_position
          = w.robots_with_position by simp [registerStep, hp]]
      rw [show (registerStep (w, c) r0).2 = c + 1 from rfl]
      constructor
      · rintro (hw | ⟨k, hk, hik, hflag⟩)
        · exact Or.inl hw
        · exact Or.inr ⟨k + 1, by simpa using hk, by omega, hflag⟩
      · rintro (hw | ⟨k, hk, hik, hflag⟩)
        · exact Or.inl hw
        · cases k with
          | zero =>
            have hr : r0 = r := by simpa using hk
            rw [← hr] at hflag
            exact absurd hflag hp
          | succ k => exact Or.inr ⟨k, by simpa using hk, by omega, hflag⟩

lemma register_mem_orientation (robots : List GoalFlags) :
    ∀ (w : WorldReg) (c i : Nat) (r : GoalFlags),
      ((i, r) ∈ (robots.foldl registerStep (w, c)).1.robots_with_orientation ↔
        (i, r) ∈ w.robots_with_orientation ∨
          ∃ k, robots.get? k = some r ∧ i = c + k ∧
            r.needs_a_position = false ∧ r.needs_a_rotation = true) := by
  induction robots with
  | nil =>
    intro w c i r
    simp
  | cons r0 rest ih =>
    intro w c i r
    simp only [List.foldl_cons]
    rw [ih]
    by_cases hp : r0.needs_a_position = true
    · rw [show (registerStep (w, c) r0).1.robots_with_orientation
          = w.robots_with_orientation by simp [registerStep, hp]]
      rw [show (registerStep (w, c) r0).2 = c + 1 from rfl]
      constructor
      · rintro (hw | ⟨k, hk, hik, hflag⟩)
        · exact Or.inl hw
        · exact Or.inr ⟨k + 1, by simpa using hk, by omega, hflag⟩
      · rintro (hw | ⟨k, hk, hik, hf1, hf2⟩)
        · exact Or.inl hw
        · cases k with
          | zero =>
            have hr : r0 = r := by simpa using hk
            rw [← hr] at hf1
            rw [hf1] at hp
            exact absurd hp (by simp)
          | succ k => exact Or.inr ⟨k, by simpa using hk, by omega, hf1, hf2⟩
    · have hp2 : r0.needs_a_position = false := by simpa using hp
      by_cases hq : r0.needs_a_rotation = true
      · rw [show (registerStep (w, c) r0).1.robots_with_orientation
            = w.robots_with_orientation ++ [(c, r0)] by simp [registerStep, hp2, hq]]
        rw [show (registerStep (w, c) r0).2 = c + 1 from rfl]
        simp only [List.mem_append, List.mem_singleton, Prod.mk.injEq]
        constructor
        · rintro ((hw | ⟨hi, hr⟩) | ⟨k, hk, hik, hflag⟩)
          · exact Or.inl hw
          · exact Or.inr ⟨0, by simp [hr], by omega, by rw [hr]; exact hp2,
              by rw [hr]; exact hq⟩
          · exact Or.inr ⟨k + 1, by simpa using hk, by omega, hflag⟩
        · rintro (hw | ⟨k, hk, hik, hf1, hf2⟩)
          · exact Or.inl (Or.inl hw)
          · cases k with
            | zero =>
              have hr : r0 = r := by simpa using hk
              exact Or.inl (Or.inr ⟨by omega, hr.symm⟩)
            | succ k => exact Or.inr ⟨k, by simpa using hk, by omega, hf1, hf2⟩
      · have hq2 : r0.needs_a_rotation = false := by simpa using hq
        rw [show (registerStep (w, c) r0).1.robots_with_orientation
            = w.robots_with_orientation by simp [registerStep, hp2, hq2]]
        rw [show (registerStep (w, c) r0).2 = c + 1 from rfl]
        constructor
        · rintro (hw | ⟨k, hk, hik, hflag⟩)
          · exact Or.inl hw
          · exact Or.inr ⟨k + 1, by simpa using hk, by omega, hflag⟩
        · rintro (hw | ⟨k, hk, hik, hf1, hf2⟩)
          · exact Or.inl hw
          · cases k with
            | zero =>
              have hr : r0 = r := by simpa using hk
              rw [← hr] at hf2
              rw [hf2] at hq2
              exact absurd hq2 (by simp)
            | succ k => exact Or.inr ⟨k, by simpa using hk, by omega, hf1, hf2⟩

end ModularDRL

namespace ModularDRL

/-- C2 counterexample: when every generation attempt collides, the
check `reset_count > 1000` at the top of the loop lets attempts run
while `reset_count` is `0, 1, ..., 1000`, so the exception is raised
only after 1001 attempts, not after exactly 1000 as claimed. -/
theorem C2_counterexample :
    resetLoop (fun _ => true) 0 0 = ResetOutcome.fatal 1001 ∧ (1001 : Nat) ≠ 1000 := by
  refine ⟨?_, by decide⟩
  have h := resetLoop_all_collide (fun _ => true) (fun _ => rfl) 1001 0 (by omega)
  simpa using h

/-- C2 amended: if every episode-initialization attempt produces a
collision, `reset()` raises a fatal, unrecoverable error after exactly
1001 attempts (no more, no fewer); a single colliding attempt is
handled by retrying inside the loop and is never surfaced to the
caller. -/
theorem C2_fatal_after_1001 (collides collides2 : Nat → Bool)
    (hall : ∀ n, collides n = true)
    (h0 : collides2 0 = true) (h1 : collides2 1 = false) :
    resetLoop collides 0 0 = ResetOutcome.fatal 1001 ∧
    resetLoop collides2 0 0 = ResetOutcome.ok 2 := by
  constructor
  · have h := resetLoop_all_collide collides hall 1001 0 (by omega)
    simpa using h
  · rw [resetLoop, dif_neg (by omega), if_pos h0]
    rw [resetLoop, dif_neg (by omega), if_neg (by simp [h1])]

/-- C2 witness: the amended statement at the all-collide predicate and
at a predicate whose sole collision is on the first attempt. -/
theorem C2_fatal_after_1001_witness :
    resetLoop (fun _ => true) 0 0 = ResetOutcome.fatal 1001 ∧
    resetLoop (fun n => decide (n = 0)) 0 0 = ResetOutcome.ok 2 :=
  C2_fatal_after_1001 (fun _ => true) (fun n => decide (n = 0))
    (fun _ => rfl) (by decide) (by decide)

/-- C4 counterexample: two sensors both contributing the key `"pose"`
with distinct space descriptors compose without any error; the later
sensor's descriptor silently overwrites the earlier one's. -/
theorem C4_counterexample :
    composeObservationSpace
        [⟨true, [("pose", 1)]⟩, ⟨true, [("pose", 2)]⟩] [] = [("pose", 2)] ∧
    (1 : Nat) ≠ 2 := by
  refine ⟨rfl, by decide⟩

/-- C4 amended: when a later plugin contributes an observation-space
key equal to one contributed by an earlier plugin, composition does not
fail: the later plugin's descriptor silently overwrites the earlier
one's value under the shared key (which keeps its original position). -/
theorem C4_silent_overwrite (k : String) (v1 v2 : Nat) :
    composeObservationSpace [⟨true, [(k, v1)]⟩] [⟨true, [(k, v2)]⟩] = [(k, v2)] := by
  simp [composeObservationSpace, dictMerge, dictInsert]

/-- C5 counterexample: right after construction, zero episodes have
completed but every stat buffer already holds the seed entry `[False]`,
so its length is `1`, not `min 0 stat_buffer_size = 0`. -/
theorem C5_counterexample :
    (statBufferAfter []).length = 1 ∧
    min (0 : Nat) stat_buffer_size = 0 ∧ (1 : Nat) ≠ 0 := by
  refine ⟨rfl, by decide, by decide⟩

/-- C5 amended: each stat buffer is seeded with a single `False` entry
at construction, so after `n` completed episodes its length is exactly
`min (1 + n) stat_buffer_size`; in particular it never exceeds
`stat_buffer_size`, and pushing onto a buffer at capacity evicts the
oldest entry first. -/
theorem C5_buffer_length (outcomes : List Bool) (buf : List Bool) (x : Bool)
    (h : buf.length = stat_buffer_size) :
    (statBufferAfter outcomes).length = min (1 + outcomes.length) stat_buffer_size ∧
    statPush buf x stat_buffer_size = buf.tail ++ [x] := by
  constructor
  · have hl := statFold_length outcomes [false] (by simp [stat_buffer_size])
    simpa [statBufferAfter] using hl
  · cases buf with
    | nil => simp [stat_buffer_size] at h
    | cons a as =>
      simp only [List.length_cons] at h
      have hgt : stat_buffer_size < as.length + 1 + 1 := by omega
      simp [statPush, hgt]

/-- C5 witness: the amended statement after 30 completed episodes and
at a buffer filled to capacity. -/
theorem C5_buffer_length_witness :
    (statBufferAfter (List.replicate 30 true)).length
      = min (1 + (List.replicate 30 true).length) stat_buffer_size ∧
    statPush (List.replicate 25 false) true stat_buffer_size
      = (List.replicate 25 false).tail ++ [true] :=
  C5_buffer_length (List.replicate 30 true) (List.replicate 25 false) true (by decide)

/-- C7: a robot's active flag flips from true to false only during a
step whose goal reported success with `continue_after_success` false;
once false it stays false through any further steps of the episode, and
a deactivated robot receives no `process_action` call in any later
step, whatever the other robots' dimensionalities or activity and
whatever the action vector. -/
theorem C7_active_flag_invariant (active : List Bool) (goals : List StepGoalInput)
    (steps : List (List StepGoalInput)) (i : Nat)
    (hT : active.get? i = some true)
    (hF : (updateActive active goals).get? i = some false) :
    (∃ g, goals.get? i = some g ∧ g.success = true ∧ g.continue_after_success = false) ∧
    (runSteps (updateActive active goals) steps).get? i = some false ∧
    ∀ (dims : List Nat) (action s : List Int),
      (i, s) ∉ stepActionCalls (dims.zip (runSteps (updateActive active goals) steps)) 0 0 action := by
  have hstable := runSteps_false_stable steps (updateActive active goals) i hF
  refine ⟨updateActive_deactivation active goals i hT hF, hstable, ?_⟩
  intro dims action s hmem
  obtain ⟨k, d, hk, hik⟩ := stepActionCalls_mem_active _ 0 0 action i s hmem
  have hk2 : (runSteps (updateActive active goals) steps).get? k = some true :=
    zip_get?_snd dims _ k (d, true) hk
  rw [show k = i by omega] at hk2
  rw [hstable] at hk2
  exact Bool.noConfusion (Option.some.injEq _ _ ▸ hk2 : false = true)

/-- C7 witness: two robots; the first one's goal succeeds with
`continue_after_success` off while the second continues; after one more
step the first robot's flag is still false and it receives no
`process_action` call. -/
theorem C7_active_flag_invariant_witness :
    (∃ g, ([⟨true, false⟩, ⟨false, false⟩] : List StepGoalInput).get? 0 = some g ∧
      g.success = true ∧ g.continue_after_success = false) ∧
    (runSteps (updateActive [true, true] [⟨true, false⟩, ⟨false, false⟩])
        [[⟨false, false⟩, ⟨false, false⟩]]).get? 0 = some false ∧
    (0, [5, 6]) ∉ stepActionCalls
        ([2, 3].zip (runSteps (updateActive [true, true] [⟨true, false⟩, ⟨false, false⟩])
          [[⟨false, false⟩, ⟨false, false⟩]])) 0 0 [5, 6, 7, 8, 9] := by
  have h := C7_active_flag_invariant [true, true] [⟨true, false⟩, ⟨false, false⟩]
    [[⟨false, false⟩, ⟨false, false⟩]] 0 rfl rfl
  exact ⟨h.1, h.2.1, h.2.2 [2, 3] [5, 6, 7, 8, 9] [5, 6]⟩

/-- C8 counterexample: one robot with a position-only starting
constraint.  In the attempt trace, `world.build()` precedes the
teleport (`moveto_xyz`), and no teleport precedes `world.build()` —
the opposite of the claimed spec order (teleport at step d before
build at step f). -/
theorem C8_counterexample :
    resetAttemptTrace 1 [EeConstraint.posOnly] =
      [ResetEvent.pybResetSimulation, ResetEvent.worldReset, ResetEvent.robotBuild 0,
       ResetEvent.createEeStartingPoints, ResetEvent.createPositionTarget,
       ResetEvent.createRotationTarget, ResetEvent.worldBuild,
       ResetEvent.movetoXyz 0, ResetEvent.collisionCheck] ∧
    occursBefore (resetAttemptTrace 1 [EeConstraint.posOnly])
      (ResetEvent.movetoXyz 0) ResetEvent.worldBuild = false ∧
    occursBefore (resetAttemptTrace 1 [EeConstraint.posOnly])
      ResetEvent.worldBuild (ResetEvent.movetoXyz 0) = true := by
  refine ⟨by decide, by decide, by decide⟩

/-- C8 amended: in every generation attempt, the end-effector starting
constraints are created (`create_ee_starting_points`) before
`world.build()` is called, but the teleports applying them run after
`world.build()` (and before the collision check), not before it. -/
theorem C8_teleports_follow_build (n : Nat) (eePoints : List EeConstraint) (e : ResetEvent)
    (he : e ∈ teleportEvents 0 eePoints) :
    occursBefore (resetAttemptTrace n eePoints)
      ResetEvent.createEeStartingPoints ResetEvent.worldBuild = true ∧
    occursBefore (resetAttemptTrace n eePoints) ResetEvent.worldBuild e = true := by
  constructor
  · have h : resetAttemptTrace n eePoints
        = (ResetEvent.pybResetSimulation :: ResetEvent.worldReset ::
            (List.range n).map ResetEvent.robotBuild)
          ++ ResetEvent.createEeStartingPoints ::
            (ResetEvent.createPositionTarget :: ResetEvent.createRotationTarget ::
              ResetEvent.worldBuild ::
              (teleportEvents 0 eePoints ++ [ResetEvent.collisionCheck])) := by
      simp [resetAttemptTrace]
    rw [h]
    exact occursBefore_of_append _ _ _ _ (by simp)
  · have h : resetAttemptTrace n eePoints
        = (ResetEvent.pybResetSimulation :: ResetEvent.worldReset ::
            ((List.range n).map ResetEvent.robotBuild
              ++ [ResetEvent.createEeStartingPoints, ResetEvent.createPositionTarget,
                  ResetEvent.createRotationTarget]))
          ++ ResetEvent.worldBuild ::
            (teleportEvents 0 eePoints ++ [ResetEvent.collisionCheck]) := by
      simp [resetAttemptTrace]
    rw [h]
    exact occursBefore_of_append _ _ _ _ (List.mem_append_left _ he)

/-- C8 witness: the amended statement at a single robot with a
position-only starting constraint. -/
theorem C8_teleports_follow_build_witness :
    occursBefore (resetAttemptTrace 1 [EeConstraint.posOnly])
      ResetEvent.createEeStartingPoints ResetEvent.worldBuild = true ∧
    occursBefore (resetAttemptTrace 1 [EeConstraint.posOnly])
      ResetEvent.worldBuild (ResetEvent.movetoXyz 0) = true :=
  C8_teleports_follow_build 1 [EeConstraint.posOnly] (ResetEvent.movetoXyz 0) (by decide)

/-- C6: the aggregated termination signals. `done` holds iff collision or
some goal reported done; `isSuccess` holds iff every goal reported
success, vacuously true on zero goals; `timeout` and `outOfBounds` are
the ORs of the goals' respective flags. -/
theorem C6_termination_aggregation (results : List GoalStepResult) (collision : Bool) :
    (envDone results collision = true ↔
      collision = true ∨ ∃ r ∈ results, r.done = true) ∧
    (envIsSuccess results = true ↔ ∀ r ∈ results, r.success = true) ∧
    envIsSuccess [] = true ∧
    (envTimeout results = true ↔ ∃ r ∈ results, r.timeout = true) ∧
    (envOutOfBounds results = true ↔ ∃ r ∈ results, r.out_of_bounds = true) := by
  refine ⟨?_, ?_, rfl, ?_, ?_⟩ <;>
    simp [envDone, envIsSuccess, envTimeout, envOutOfBounds, List.any_eq_true,
      List.all_eq_true, or_comm]

/-- C1: with two robots of dimensionalities 2 and 3 and the first robot
inactive, the loop hands the second robot `action[0:3]` instead of the
fixed-boundary slice `action[2:5]` the spec prescribes: the `continue`
for an inactive robot skips the offset increment, so the slice
boundaries are not fixed at construction time but shift with the set of
currently active robots. -/
theorem C1_slice_shift_bug :
    stepActionCalls [(2, false), (3, true)] 0 0 [10, 11, 12, 13, 14]
      = [(1, [10, 11, 12])] ∧
    specFixedSlice [2, 3] 1 [10, 11, 12, 13, 14] = [12, 13, 14] ∧
    ([10, 11, 12] : List Int) ≠ [12, 13, 14] := by
  refine ⟨rfl, rfl, by decide⟩

/-- C3 counterexample: a `step` call whose action vector has length 4,
while the robots' dimensionalities sum to 5, is not rejected: both
robots still receive a `process_action` call, the trailing slice
silently clamped to the elements available. -/
theorem C3_counterexample :
    ([10, 11, 12, 13] : List Int).length ≠ ([2, 3] : List Nat).sum ∧
    stepActionCalls [(2, true), (3, true)] 0 0 [10, 11, 12, 13]
      = [(0, [10, 11]), (1, [12, 13])] := by
  refine ⟨by decide, rfl⟩

/-- C9: with the first robot inactive at the start of a logged step,
`exec_times_cpu` holds only the active robot's metric; the logging loop
then pairs the inactive robot's name with the active robot's metric and
raises `IndexError` (`none`) when it reaches the active robot's index.
With both robots active the record is as the claim describes. -/
theorem C9_exec_time_indexing_bug :
    execTimesCpu [⟨"ur5_1", false, 5⟩, ⟨"ur5_2", true, 7⟩] = [7] ∧
    actionCpuTimeInfo [⟨"ur5_1", false, 5⟩, ⟨"ur5_2", true, 7⟩] = none ∧
    actionCpuTimeInfo [⟨"ur5_1", true, 5⟩, ⟨"ur5_2", true, 7⟩]
      = some [("action_cpu_time_ur5_1", 5), ("action_cpu_time_ur5_2", 7)] := by
  refine ⟨rfl, rfl, by decide⟩

/-- C10: the rotation-needing partition built by `register_robots`
holds exactly the registered robots whose goal needs a rotation but not
a position; the position-needing partition holds exactly those whose
goal needs a position (so a robot with both flags lands only there);
the two partitions are disjoint. -/
theorem C10_registration_partition (robots : List GoalFlags) (i : Nat) (r : GoalFlags) :
    ((i, r) ∈ (register_robots robots).robots_with_position ↔
      (i, r) ∈ (register_robots robots).robots_in_world ∧ r.needs_a_position = true) ∧
    ((i, r) ∈ (register_robots robots).robots_with_orientation ↔
      (i, r) ∈ (register_robots robots).robots_in_world ∧
        r.needs_a_rotation = true ∧ r.needs_a_position = false) ∧
    ¬((i, r) ∈ (register_robots robots).robots_with_position ∧
      (i, r) ∈ (register_robots robots).robots_with_orientation) := by
  have h1 := register_mem_in_world robots ⟨[], [], []⟩ 0 i r
  have h2 := register_mem_position robots ⟨[], [], []⟩ 0 i r
  have h3 := register_mem_orientation robots ⟨[], [], []⟩ 0 i r
  simp only [register_robots, h1, h2, h3]
  simp only [List.not_mem_nil, false_or, Nat.zero_add]
  refine ⟨?_, ?_, ?_⟩
  · constructor
    · rintro ⟨k, hk, hik, hflag⟩
      exact ⟨⟨k, hk, hik⟩, hflag⟩
    · rintro ⟨⟨k, hk, hik⟩, hflag⟩
      exact ⟨k, hk, hik, hflag⟩
  · constructor
    · rintro ⟨k, hk, hik, hf1, hf2⟩
      exact ⟨⟨k, hk, hik⟩, hf2, hf1⟩
    · rintro ⟨⟨k, hk, hik⟩, hf2, hf1⟩
      exact ⟨k, hk, hik, hf1, hf2⟩
  · rintro ⟨⟨k, hk, hik, hflag⟩, ⟨k2, hk2, hik2, hf1, hf2⟩⟩
    rw [hflag] at hf1
    exact Bool.noConfusion hf1

/-- C10 witness: a robot whose goal needs both a position and a
rotation is placed in the position partition and not in the rotation
partition. -/
theorem C10_registration_partition_witness :
    ((0, (⟨true, true⟩ : GoalFlags)) ∈ (register_robots [⟨true, true⟩]).robots_with_position) ∧
    ((0, (⟨true, true⟩ : GoalFlags)) ∉ (register_robots [⟨true, true⟩]).robots_with_orientation) := by
  have h := C10_registration_partition [⟨true, true⟩] 0 ⟨true, true⟩
  refine ⟨h.1.mpr ⟨by decide, rfl⟩, fun hmem => ?_⟩
  have h2 := (h.2.1.mp hmem).2.2
  exact Bool.noConfusion h2

/-- C3 amended: `step` performs no validation of the action vector's
length.  For every action vector, of any length, the partition loop
runs to completion and makes exactly one `process_action` call per
active robot; a mismatched length is silently tolerated (slices are
clamped), never rejected. -/
theorem C3_no_length_validation (robots : List (Nat × Bool)) (offset idx : Nat)
    (action : List Int) :
    (stepActionCalls robots offset idx action).length
      = (robots.filter (fun p => p.2)).length :=
  stepActionCalls_length robots offset idx action

end ModularDRL
